import Mathlib

/-!
Verification of the MSA (multiple sequence alignment) container of
`prody/sequence/msa.py`: the data model (character grid, label table,
label-to-row mapping), both construction branches of `MSA.__init__`,
the indexing engine `MSA.__getitem__`, `MSA.__contains__` and `MSA.__eq__`.

Python dictionaries are modelled as insertion lists where a later
insertion for the same key shadows an earlier one (`dictGet?` scans the
tail, i.e. the most recent insertions, first).  Numpy arrays of dtype
`|S1` are modelled as `List (List Char)`; real arrays are rectangular,
which theorems assume through an explicit hypothesis where it matters.
-/

namespace ProdyMSA

/-- A 2-D numpy character array (dtype `|S1`), row major. -/
abbrev Grid := List (List Char)

/-- Rectangularity of a grid: every row has length `C` (numpy arrays are
always rectangular; the list model has to state it). -/
abbrev Rect (g : Grid) (C : Nat) : Prop := ∀ row ∈ g, row.length = C

/-- Split a character list at every occurrence of `sep`, like Python
`str.split(sep)`.  The result is always nonempty. -/
def splitCharsOn (sep : Char) : List Char → List (List Char)
  | [] => [[]]
  | c :: rest =>
    match splitCharsOn sep rest with
    | [] => [[]]
    | g :: gs => if c == sep then [] :: g :: gs else (c :: g) :: gs

/-- Value of a decimal digit character, if it is one. -/
def digitVal? (c : Char) : Option Nat :=
  if c.isDigit then some (c.toNat - 48) else none

/-- Parse a nonempty run of decimal digits, like Python `int(s)` on
well-formed input (anything else yields `none`). -/
def digitsToNat? (cs : List Char) : Option Nat :=
  match cs with
  | [] => none
  | _ => cs.foldlM (fun acc c => (digitVal? c).map (fun d => acc * 10 + d)) 0

/-- Modelled from the spec: `splitLabel` from the msafile collaborator
(`prody/sequence/msafile.py`, not under src/).  Decomposes a label of the
form `"name/start-end"` into `(name, start, end)`; a label without a
well-formed residue-range suffix yields the sentinel `(label, 0, 0)`. -/
def splitLabel (label : String) : String × Nat × Nat :=
  match splitCharsOn '/' label.data with
  | [name, rng] =>
    match splitCharsOn '-' rng with
    | [s, e] =>
      match digitsToNat? s, digitsToNat? e with
      | some a, some b => (String.mk name, a, b)
      | _, _ => (label, 0, 0)
    | _ => (label, 0, 0)
  | _ => (label, 0, 0)

/-- Python dict lookup over the insertion list: the MOST RECENT insertion
for a key wins, so the tail (later insertions) is consulted first. -/
def dictGet? (m : List (String × Nat)) (k : String) : Option Nat :=
  match m with
  | [] => none
  | p :: rest =>
    match dictGet? rest k with
    | some v => some v
    | none => if p.1 = k then some p.2 else none

/-- The `for i, (label, seq) in enumerate(msa): mapping[splitLabel(label)[0]] = i`
loop of `MSA.__init__` (src lines 130-133): one insertion per row, keyed by
the label base name, valued by the row position.  `i` is the position of the
first element. -/
def buildMapAux (i : Nat) : List String → List (String × Nat)
  | [] => []
  | lab :: rest => ((splitLabel lab).1, i) :: buildMapAux (i + 1) rest

/-- The label-to-row mapping built from a label list (insertions in row
order; duplicate base names mean the later insertion shadows). -/
def buildMapping (names : List String) : List (String × Nat) :=
  buildMapAux 0 names

/-- The data model of the `MSA` class: `_msa` (character grid), `_labels`
(per-row label, `none` standing for Python `None`), `_mapping` (label
index, `none` when unset) and `_title`. -/
structure MSA where
  msa : Grid
  labels : List (Option String)
  mapping : Option (List (String × Nat))
  title : String
  deriving DecidableEq

/-- An element of a Python list used as an index: a positional integer or
a label string. -/
inductive Elem where
  | int (i : Int)
  | str (s : String)
  deriving DecidableEq

/-- A row or column sub-selector of an index expression (one component of
a tuple index, or a bare row selector). -/
inductive Sub where
  | int (i : Int)
  | str (s : String)
  | slice (a b : Option Int)
  | list (xs : List Elem)
  deriving DecidableEq

/-- A Python index expression as received by `MSA.__getitem__`. -/
inductive Idx where
  | int (i : Int)
  | str (s : String)
  | slice (a b : Option Int)
  | list (xs : List Elem)
  | tup (xs : List Sub)
  deriving DecidableEq

/-- Errors surfaced by the modelled methods.  `invalidIndex` is the
`IndexError("invalid index: " ...)` that `__getitem__` raises itself and
carries the original expression; the other constructors stand for
exceptions propagating unwrapped from numpy / the Python runtime. -/
inductive PyErr where
  | invalidIndex (index : Idx)
  | npError (msg : String)
  | attributeError (msg : String)
  | valueError (msg : String)
  deriving DecidableEq

/-- Collect a list of options, `none` when any element is `none`. -/
def optAll {α : Type} : List (Option α) → Option (List α)
  | [] => some []
  | none :: _ => none
  | some y :: xs =>
    match optAll xs with
    | some ys => some (y :: ys)
    | none => none

/-- The dict comprehension `{splitLabel(label)[0]: i for i, label in enumerate(labels)}`
(src lines 150-152) over possibly-`None` labels; `splitLabel(None)` raises. -/
def buildMappingOpt (labels : List (Option String)) : Except PyErr (List (String × Nat)) :=
  match optAll labels with
  | none => .error (.attributeError "splitLabel expects a string label")
  | some ls => .ok (buildMapping ls)

/-- Raw-grid construction branch of `MSA.__init__` (src lines 136-158):
the grid is reused as-is; a supplied nonempty labels list must match the
row count (`if labels and len(self._labels) != numseq`, note the
truthiness test); a mapping is built from the labels only when no mapping
was supplied and labels is not `None`; absent labels become `[None] * numseq`. -/
def msaFromGrid (grid : Grid) (labels : Option (List (Option String)))
    (mapping : Option (List (String × Nat))) (title : String) :
    Except PyErr MSA :=
  let numseq := grid.length
  match labels with
  | some ls =>
    if ls ≠ [] ∧ ls.length ≠ numseq then
      .error (.valueError "len(labels) must be equal to number of sequences")
    else
      match mapping with
      | some mp => .ok ⟨grid, ls, some mp, title⟩
      | none =>
        match buildMappingOpt ls with
        | .error e => .error e
        | .ok mp => .ok ⟨grid, ls, some mp, title⟩
  | none => .ok ⟨grid, List.replicate numseq none, mapping, title⟩

/-- Iterator-consuming construction branch of `MSA.__init__` (src lines
124-135): one row per `(label, seq)` pair, labels kept in order, mapping
built greedily with one insertion per row. -/
def msaFromPairs (pairs : List (String × String)) (title : String) : MSA :=
  { msa := pairs.map (fun p => p.2.data)
    labels := pairs.map (fun p => some p.1)
    mapping := some (buildMapping (pairs.map (fun p => p.1)))
    title := title }

/-- Step 1 of `__getitem__` (src lines 172-192): classify the expression
into a row selector and an optional column selector.  Integers and slices
have no `len`; strings have `strip`; lists have `sort`; tuples have
neither, and only arity 1 or 2 is accepted (`repr` of the expression is
carried by the error). -/
def classify (index : Idx) : Except PyErr (Sub × Option Sub) :=
  match index with
  | .int i => .ok (.int i, none)
  | .slice a b => .ok (.slice a b, none)
  | .str s => .ok (.str s, none)
  | .list xs => .ok (.list xs, none)
  | .tup xs =>
    match xs with
    | [r] => .ok (r, none)
    | [r, c] => .ok (r, c)
    | _ => .error (.invalidIndex index)

/-- The comprehension `[mapping[key] for key in rows]` (src line 199):
every element must be a present key, or the whole comprehension raises
(`KeyError` for a missing or integer key) and the original list is kept. -/
def listResolve (mp : List (String × Nat)) : List Elem → Option (List Nat)
  | [] => some []
  | .int _ :: _ => none
  | .str s :: es =>
    match dictGet? mp s, listResolve mp es with
    | some v, some vs => some (v :: vs)
    | _, _ => none

/-- Step 2 of `__getitem__` (src lines 194-201): resolve the row selector.
`self._mapping.get(rows, rows)` replaces a single present key; an unset
mapping (`None`) raises `AttributeError`, which the surrounding
`except (TypeError, KeyError)` does NOT catch; unhashable selectors
(lists, slices) fall to the all-or-nothing list comprehension. -/
def resolveRows (mapping : Option (List (String × Nat))) (rows : Sub) :
    Except PyErr Sub :=
  match mapping with
  | none => .error (.attributeError "NoneType object has no attribute get")
  | some mp =>
    match rows with
    | .str s =>
      match dictGet? mp s with
      | some i => .ok (.int (i : Int))
      | none => .ok (.str s)
    | .int i => .ok (.int i)
    | .slice a b => .ok (.slice a b)
    | .list xs =>
      match listResolve mp xs with
      | some vs => .ok (.list (vs.map (fun v => Elem.int (v : Int))))
      | none => .ok (.list xs)

/-- A column selector after step 3: either still a plain sub-selector or
the boolean gap mask derived from a named row. -/
inductive ColSel where
  | sub (s : Sub)
  | mask (bs : List Bool)
  deriving DecidableEq

/-- Step 3 of `__getitem__` (src lines 206-211): a column selector that is
a present key of the mapping is replaced by `char.isalpha(self._msa[row])`;
lookup failures (`KeyError`/`TypeError`, including an unset mapping) leave
the selector as given.  The row fetch in the `else:` clause is outside the
`try`, so an out-of-range row propagates unwrapped. -/
def resolveCols (mapping : Option (List (String × Nat))) (g : Grid)
    (cols : Sub) : Except PyErr ColSel :=
  match mapping with
  | none => .ok (.sub cols)
  | some mp =>
    match cols with
    | .str s =>
      match dictGet? mp s with
      | some r =>
        if r < g.length then .ok (.mask ((g.getD r []).map Char.isAlpha))
        else .error (.npError "index out of range")
      | none => .ok (.sub cols)
    | c => .ok (.sub c)

/-- Normalize a Python integer index against axis length `n`: negative
indices count from the end; anything out of `[-n, n)` is invalid. -/
def npIdx (n : Nat) (i : Int) : Option Nat :=
  if 0 ≤ i ∧ i < n then some i.toNat
  else if -(n : Int) ≤ i ∧ i < 0 then some (i + n).toNat
  else none

/-- Python slice start bound (step 1): clamped into `[0, n]`. -/
def normStart (n : Nat) (a : Option Int) : Nat :=
  match a with
  | none => 0
  | some i => if i < 0 then (i + n).toNat else min i.toNat n

/-- Python slice stop bound (step 1): clamped into `[0, n]`. -/
def normStop (n : Nat) (b : Option Int) : Nat :=
  match b with
  | none => n
  | some i => if i < 0 then (i + n).toNat else min i.toNat n

/-- The axis positions a slice `a:b` selects on an axis of length `n`. -/
def sliceIdxs (n : Nat) (a b : Option Int) : List Nat :=
  List.range' (normStart n a) (normStop n b - normStart n a)

/-- All elements of an index list as integers, `none` when any is a string
(numpy rejects string elements of a fancy index on a char array). -/
def elemsToInts : List Elem → Option (List Int)
  | [] => some []
  | .int i :: es => (elemsToInts es).map (fun is => i :: is)
  | .str _ :: _ => none

/-- The shape-classified value of a numpy selection. -/
inductive NpResult where
  | scalar (c : Char)
  | vec (v : List Char)
  | mat (g : Grid)
  deriving DecidableEq

/-- One-part numpy selection `self._msa[rows]` (src line 204) — NOT
wrapped by any `try`, so every failure here propagates unwrapped. -/
def select1 (g : Grid) (rows : Sub) : Except PyErr NpResult :=
  match rows with
  | .int i =>
    match npIdx g.length i with
    | some r => .ok (.vec (g.getD r []))
    | none => .error (.npError "index out of range")
  | .slice a b => .ok (.mat ((sliceIdxs g.length a b).map (fun r => g.getD r [])))
  | .str _ => .error (.npError "field access on a char array")
  | .list xs =>
    match elemsToInts xs with
    | none => .error (.npError "fancy index element is not an integer")
    | some is =>
      match optAll (is.map (npIdx g.length)) with
      | some rs => .ok (.mat (rs.map (fun r => g.getD r [])))
      | none => .error (.npError "index out of range")

/-- Keep the characters of a row at the `true` positions of a boolean
mask (numpy boolean-mask column selection). -/
def maskFilter : List Char → List Bool → List Char
  | [], _ => []
  | _ :: _, [] => []
  | c :: cs, b :: bs => if b then c :: maskFilter cs bs else maskFilter cs bs

/-- Positions of the `true` entries of a boolean mask (`numpy.nonzero`). -/
def maskTrueIdxs : List Bool → List Nat
  | [] => []
  | b :: bs =>
    if b then 0 :: (maskTrueIdxs bs).map (fun x => x + 1)
    else (maskTrueIdxs bs).map (fun x => x + 1)

/-- Numpy broadcasting of two 1-D index arrays: equal lengths pair up,
a length-1 array is repeated, anything else fails to broadcast. -/
def broadcast2 (is cs : List Int) : Option (List (Int × Int)) :=
  if is.length = cs.length then some (is.zip cs)
  else if is.length = 1 then some (cs.map (fun c => (is.headD 0, c)))
  else if cs.length = 1 then some (is.map (fun r => (r, cs.headD 0)))
  else none

/-- Combined fancy row/column selection `a[rowArray, colArray]`: broadcast
the two index arrays and fetch each resulting (row, column) pair; the
result is 1-D. -/
def pairSelect (g : Grid) (is cs : List Int) : Option NpResult :=
  match broadcast2 is cs with
  | none => none
  | some ps =>
    (optAll (ps.map (fun p =>
      (npIdx g.length p.1).bind (fun r =>
        (npIdx (g.getD r []).length p.2).map (fun c => (g.getD r []).getD c ' '))))).map
      NpResult.vec

/-- Two-part numpy selection `self._msa[rows, cols]` (src line 214).
`none` stands for any exception, which `__getitem__` re-raises as its own
`IndexError("invalid index: ...")`.  (Two simplifications that cannot be
observed through `__getitem__` on a rectangular grid: a boolean mask is
not re-checked against the column count — the engine only ever builds the
mask from a row of the same grid — and an out-of-bounds column index on an
empty row selection is not detected.) -/
def select2 (g : Grid) (rows : Sub) (cols : ColSel) : Option NpResult :=
  match rows, cols with
  | .str _, _ => none
  | _, .sub (.str _) => none
  | .int i, .sub (.int j) =>
    (npIdx g.length i).bind (fun r =>
      (npIdx (g.getD r []).length j).map (fun c =>
        NpResult.scalar ((g.getD r []).getD c ' ')))
  | .int i, .sub (.slice a b) =>
    (npIdx g.length i).map (fun r =>
      NpResult.vec ((sliceIdxs (g.getD r []).length a b).map
        (fun c => (g.getD r []).getD c ' ')))
  | .int i, .sub (.list ys) =>
    (npIdx g.length i).bind (fun r =>
      (elemsToInts ys).bind (fun cs =>
        (optAll (cs.map (fun c =>
          (npIdx (g.getD r []).length c).map
            (fun c2 => (g.getD r []).getD c2 ' ')))).map NpResult.vec))
  | .int i, .mask mk =>
    (npIdx g.length i).map (fun r => NpResult.vec (maskFilter (g.getD r []) mk))
  | .slice a b, .sub (.int j) =>
    (optAll ((sliceIdxs g.length a b).map (fun r =>
      (npIdx (g.getD r []).length j).map
        (fun c => (g.getD r []).getD c ' ')))).map NpResult.vec
  | .slice a b, .sub (.slice c d) =>
    some (.mat ((sliceIdxs g.length a b).map (fun r =>
      (sliceIdxs (g.getD r []).length c d).map
        (fun cc => (g.getD r []).getD cc ' '))))
  | .slice a b, .sub (.list ys) =>
    (elemsToInts ys).bind (fun cs =>
      (optAll ((sliceIdxs g.length a b).map (fun r =>
        optAll (cs.map (fun c =>
          (npIdx (g.getD r []).length c).map
            (fun c2 => (g.getD r []).getD c2 ' ')))))).map NpResult.mat)
  | .slice a b, .mask mk =>
    some (.mat ((sliceIdxs g.length a b).map (fun r => maskFilter (g.getD r []) mk)))
  | .list xs, .sub (.int j) =>
    (elemsToInts xs).bind (fun is =>
      (optAll (is.map (fun i2 =>
        (npIdx g.length i2).bind (fun r =>
          (npIdx (g.getD r []).length j).map
            (fun c => (g.getD r []).getD c ' '))))).map NpResult.vec)
  | .list xs, .sub (.slice c d) =>
    (elemsToInts xs).bind (fun is =>
      (optAll (is.map (fun i2 =>
        (npIdx g.length i2).map (fun r =>
          (sliceIdxs (g.getD r []).length c d).map
            (fun cc => (g.getD r []).getD cc ' '))))).map NpResult.mat)
  | .list xs, .sub (.list ys) =>
    (elemsToInts xs).bind (fun is =>
      (elemsToInts ys).bind (fun cs => pairSelect g is cs))
  | .list xs, .mask mk =>
    (elemsToInts xs).bind (fun is =>
      pairSelect g is ((maskTrueIdxs mk).map (fun (x : Nat) => (x : Int))))

/-- The value returned by `MSA.__getitem__`: a single character, a full
row as a `(name, sequence, start, end)` tuple, a partial row as a bare
string, or a derived `MSA`. -/
inductive GetResult where
  | char (c : Char)
  | tuple (name : String) (seq : String) (s e : Nat)
  | str (s : String)
  | msa (m : MSA)
  deriving DecidableEq

/-- Label subsetting for a 2-D result (src lines 232-236):
`self._labels[rows]` works for a slice; a list raises `TypeError` and
falls back to `[temp[i] for i in rows]`, whose own failures propagate
unwrapped.  The remaining selector shapes cannot reach a 2-D result. -/
def subLabels (labels : List (Option String)) (rows : Sub) :
    Except PyErr (List (Option String)) :=
  match rows with
  | .slice a b => .ok ((sliceIdxs labels.length a b).map (fun r => labels.getD r none))
  | .list xs =>
    match elemsToInts xs with
    | none => .error (.npError "list index is not an integer")
    | some is =>
      match optAll (is.map (npIdx labels.length)) with
      | some rs => .ok (rs.map (fun r => labels.getD r none))
      | none => .error (.npError "label index out of range")
  | .int i =>
    match npIdx labels.length i with
    | some r => .ok [labels.getD r none]
    | none => .error (.npError "label index out of range")
  | .str _ => .error (.npError "label index is not an integer")

/-- Build the derived view for a 2-D result (src line 237): a recursive
`MSA(msa, title=self._title + prime, labels=labels)` call with the primed
title and the subset labels. -/
def mkDerived (m : MSA) (rows : Sub) (g2 : Grid) : Except PyErr GetResult :=
  match subLabels m.labels rows with
  | .error e => .error e
  | .ok ls =>
    match msaFromGrid g2 (some ls) none (m.title ++ "\x27") with
    | .error e => .error e
    | .ok m2 => .ok (.msa m2)

/-- Step 5 for a row-only selection (src lines 218-237): a 1-D result is a
full row, so its label is decoded (`splitLabel(self._labels[rows])`, where
an out-of-range row or a `None` label raises unwrapped) and the 4-tuple is
returned; a 2-D result becomes a derived `MSA`.  (`select1` never returns
a scalar, and a 1-D result only arises from an integer selector.) -/
def finish1 (m : MSA) (rows : Sub) (res : NpResult) : Except PyErr GetResult :=
  match res with
  | .scalar c => .ok (.char c)
  | .vec v =>
    match rows with
    | .int i =>
      match npIdx m.labels.length i with
      | none => .error (.npError "label index out of range")
      | some li =>
        match m.labels.getD li none with
        | none => .error (.attributeError "splitLabel expects a string label")
        | some lab => .ok (.tuple (splitLabel lab).1 (String.mk v)
            (splitLabel lab).2.1 (splitLabel lab).2.2)
    | _ => .error (.npError "non-integer selector cannot yield a row")
  | .mat g2 => mkDerived m rows g2

/-- Step 5 for a two-part selection (src lines 218-237): a 0-D result is
the bare character, a 1-D result is a bare string (`msa.tostring()`, no
label metadata), a 2-D result becomes a derived `MSA`. -/
def finish2 (m : MSA) (rows : Sub) (res : NpResult) : Except PyErr GetResult :=
  match res with
  | .scalar c => .ok (.char c)
  | .vec v => .ok (.str (String.mk v))
  | .mat g2 => mkDerived m rows g2

/-- Model of `MSA.__getitem__` (src lines 170-237): classify, resolve rows, then
either select rows only (line 204, failures unwrapped) or resolve columns
and select rows and columns (lines 206-216, any selection failure
re-raised as `IndexError("invalid index: ...")` naming the expression),
and finally materialize the result by shape. -/
def getitem (m : MSA) (index : Idx) : Except PyErr GetResult :=
  match classify index with
  | .error e => .error e
  | .ok (r0, none) =>
    match resolveRows m.mapping r0 with
    | .error e => .error e
    | .ok rows =>
      match select1 m.msa rows with
      | .error e => .error e
      | .ok res => finish1 m rows res
  | .ok (r0, some c0) =>
    match resolveRows m.mapping r0 with
    | .error e => .error e
    | .ok rows =>
      match resolveCols m.mapping m.msa c0 with
      | .error e => .error e
      | .ok csel =>
        match select2 m.msa rows csel with
        | none => .error (.invalidIndex index)
        | some res => finish2 m rows res

/-- A value used as the left operand of `in`: a string, an integer, or an
unhashable list (whose dict lookup raises `TypeError`). -/
inductive PyKey where
  | str (s : String)
  | int (i : Int)
  | list (xs : List Elem)
  deriving DecidableEq

/-- Model of `MSA.__contains__` (src lines 245-251): `key in self._mapping`, with
every failure (unset mapping → `TypeError: argument of type NoneType...`,
unhashable key → `TypeError`) swallowed into `False`.  Integer keys are
hashable but the mapping is keyed by strings, so they are never present. -/
def msaContains (m : MSA) (key : PyKey) : Bool :=
  match m.mapping with
  | none => false
  | some mp =>
    match key with
    | .str s => (dictGet? mp s).isSome
    | .int _ => false
    | .list _ => false

/-- The right operand of `==`: another `MSA`, or any value without a
`_getArray` attribute. -/
inductive PyValue where
  | msa (m : MSA)
  | other
  deriving DecidableEq

/-- Column count of a 2-D numpy array; the list model reads it off the
first row (every row agrees on a rectangular grid). -/
def gridCols (g : Grid) : Nat := (g.headD []).length

/-- One broadcast dimension: sizes must agree or one of them must be 1. -/
def bcastDim (a b : Nat) : Option Nat :=
  if a = b then some a else if a = 1 then some b else if b = 1 then some a else none

/-- Element fetch under broadcasting: a size-1 axis repeats its only entry. -/
def bget (g : Grid) (r c : Nat) : Char :=
  (g.getD (if g.length = 1 then 0 else r) []).getD
    (if (g.getD (if g.length = 1 then 0 else r) []).length = 1 then 0 else c) ' '

/-- Model of `all(g1 == g2)` on two 2-D `|S1` arrays: numpy broadcasts the shapes
(sizes equal or 1 on each axis) and compares element-wise; incompatible
shapes yield `False` (old numpy returns a `False` scalar, and an outright
exception is swallowed by the surrounding `except` anyway). `all` of an
empty comparison is `True`. -/
def npAllEq (g1 g2 : Grid) : Bool :=
  match bcastDim g1.length g2.length, bcastDim (gridCols g1) (gridCols g2) with
  | some R, some C =>
    (List.range R).all (fun r =>
      (List.range C).all (fun c => bget g1 r c == bget g2 r c))
  | _, _ => false

/-- Model of `MSA.__eq__` (src lines 253-264): fetch `other._getArray()` (anything
without the attribute compares `False`), then `all(other == self._msa)`
with any failure swallowed into `False`. -/
def msaEq (m : MSA) (v : PyValue) : Bool :=
  match v with
  | .other => false
  | .msa m2 => npAllEq m2.msa m.msa

/-! ### Helper lemmas -/

theorem npIdx_coe_lt {n i : Nat} (h : i < n) : npIdx n (i : Int) = some i := by
  simp [npIdx]
  omega

theorem rect_getD_length {g : Grid} {C r : Nat} (hrect : Rect g C)
    (hr : r < g.length) : (g.getD r []).length = C := by
  rw [List.getD_eq_getElem g [] hr]
  exact hrect _ (List.getElem_mem hr)

theorem sliceIdxs_nat {n j k : Nat} (hjn : j ≤ n) (hkn : k ≤ n) :
    sliceIdxs n (some (j : Int)) (some (k : Int)) = List.range' j (k - j) := by
  have h1 : normStart n (some (j : Int)) = j := by
    simp only [normStart]
    rw [if_neg (by omega : ¬ ((j : Int) < 0)), Int.toNat_natCast]
    omega
  have h2 : normStop n (some (k : Int)) = k := by
    simp only [normStop]
    rw [if_neg (by omega : ¬ ((k : Int) < 0)), Int.toNat_natCast]
    omega
  rw [sliceIdxs, h1, h2]

/-! ### Claim theorems -/

/-- C5: for a populated mapping, a valid row index `i` and column indices
`j ≤ k ≤ columnCount` with `j` in range, `matrix[i, j]` returns the single
character at that position, and `matrix[i, j:k]` returns just the decoded
sequence string of length `k - j`, with no label or range metadata. -/
theorem rowcol_scalar_and_slice (m : MSA) (mp : List (String × Nat)) (C : Nat)
    (i j k : Nat)
    (hmap : m.mapping = some mp) (hrect : Rect m.msa C)
    (hi : i < m.msa.length) (hj : j < C) (hjk : j ≤ k) (hk : k ≤ C) :
    getitem m (.tup [.int i, .int j]) =
      .ok (.char ((m.msa.getD i []).getD j ' ')) ∧
    ∃ s, getitem m (.tup [.int i, .slice (some j) (some k)]) = .ok (.str s) ∧
      s.length = k - j := by
  have hrow : (m.msa.getD i []).length = C := rect_getD_length hrect hi
  constructor
  · simp only [getitem, classify, hmap, resolveRows, resolveCols, select2,
      npIdx_coe_lt hi, hrow, npIdx_coe_lt hj, Option.some_bind, Option.map_some, Option.map_some',
      finish2]
  · refine ⟨String.mk ((sliceIdxs C (some (j : Int)) (some (k : Int))).map
      (fun c => (m.msa.getD i []).getD c ' ')), ?_, ?_⟩
    · simp only [getitem, classify, hmap, resolveRows, resolveCols, select2,
        npIdx_coe_lt hi, hrow, Option.some_bind, Option.map_some, Option.map_some', finish2]
    · show ((sliceIdxs C (some (j : Int)) (some (k : Int))).map
        (fun c => (m.msa.getD i []).getD c ' ')).length = k - j
      rw [sliceIdxs_nat (le_trans hjk hk) hk, List.length_map, List.length_range']

/-- A concrete alignment used by witnesses: the spec scenario grid
`["AC-GT", "ACTGT"]` with labels `["P1/1-5", "P2/1-5"]`. -/
def exMSA : MSA := msaFromPairs [("P1/1-5", "AC-GT"), ("P2/1-5", "ACTGT")] "piwi"

/-- Witness for C5: on the scenario alignment, `matrix[0, 0]` is the
character `A` and `matrix[0, 0:3]` is a bare 3-character string. -/
theorem rowcol_scalar_and_slice_witness :
    getitem exMSA (.tup [.int 0, .int 0]) = .ok (.char 'A') ∧
    ∃ s, getitem exMSA (.tup [.int 0, .slice (some 0) (some 3)]) = .ok (.str s) ∧
      s.length = 3 - 0 := by
  have h := rowcol_scalar_and_slice exMSA (buildMapping ["P1/1-5", "P2/1-5"]) 5 0 0 3
    rfl (by decide) (by decide) (by decide) (by decide) (by decide)
  exact h

/-- C4: when the mapping sends label `L` to row `i`, `matrix[L]` and
`matrix[i]` return identical `(name, sequence, start, end)` tuples, and
the decoded sequence string has length equal to the column count. -/
theorem label_and_positional_row_agree (m : MSA) (mp : List (String × Nat))
    (C i : Nat) (L : String)
    (hmap : m.mapping = some mp) (hL : dictGet? mp L = some i)
    (hi : i < m.msa.length) (hrect : Rect m.msa C)
    (hlen : m.labels.length = m.msa.length)
    (hlab : ∀ l ∈ m.labels, l.isSome) :
    getitem m (.str L) = getitem m (.int i) ∧
    ∃ name st en, getitem m (.str L) =
      .ok (.tuple name (String.mk (m.msa.getD i [])) st en) ∧
      (String.mk (m.msa.getD i [])).length = C := by
  have hli : i < m.labels.length := by omega
  have hsome : (m.labels.getD i none).isSome := by
    rw [List.getD_eq_getElem _ _ hli]
    exact hlab _ (List.getElem_mem hli)
  obtain ⟨lab, hlabeq⟩ := Option.isSome_iff_exists.mp hsome
  constructor
  · simp only [getitem, classify, resolveRows, hmap, hL]
  · refine ⟨(splitLabel lab).1, (splitLabel lab).2.1, (splitLabel lab).2.2, ?_, ?_⟩
    · simp only [getitem, classify, resolveRows, hmap, hL, select1,
        npIdx_coe_lt hi, finish1, npIdx_coe_lt hli, hlabeq]
    · show (m.msa.getD i []).length = C
      exact rect_getD_length hrect hi

/-- Witness for C4 on the scenario alignment: `matrix["P2"]` equals
`matrix[1]` and carries a 5-character sequence string. -/
theorem label_and_positional_row_agree_witness :
    getitem exMSA (.str "P2") = getitem exMSA (.int 1) ∧
    ∃ name st en, getitem exMSA (.str "P2") =
      .ok (.tuple name (String.mk (exMSA.msa.getD 1 [])) st en) ∧
      (String.mk (exMSA.msa.getD 1 [])).length = 5 := by
  exact label_and_positional_row_agree exMSA (buildMapping ["P1/1-5", "P2/1-5"]) 5 1 "P2"
    rfl (by decide) (by decide) (by decide) (by decide) (by decide)

/-- C10: an `MSA` built from a raw grid with neither labels nor mapping
has an unset Label Index, and EVERY index expression — also purely
positional ones like `matrix[0]` or `matrix[0:2]` — raises: row
resolution unconditionally calls `self._mapping.get`, and on `None` that
is an uncaught `AttributeError` (tuples of bad arity already fail in
classification). -/
theorem unlabeled_indexing_always_fails (grid : Grid) (t : String) (index : Idx) :
    msaFromGrid grid none none t = .ok ⟨grid, List.replicate grid.length none, none, t⟩ ∧
    ∃ e, getitem ⟨grid, List.replicate grid.length none, none, t⟩ index = .error e := by
  refine ⟨rfl, ?_⟩
  cases index with
  | int i => exact ⟨_, rfl⟩
  | str s => exact ⟨_, rfl⟩
  | slice a b => exact ⟨_, rfl⟩
  | list xs => exact ⟨_, rfl⟩
  | tup xs =>
    match xs with
    | [] => exact ⟨_, rfl⟩
    | [r] => exact ⟨.attributeError "NoneType object has no attribute get", rfl⟩
    | [r, c] => exact ⟨.attributeError "NoneType object has no attribute get", rfl⟩
    | a :: b :: c :: rest => exact ⟨_, rfl⟩

/-- C9 counterexample: with a 2-row raw grid and an EMPTY labels list
(length 0 ≠ 2), construction does not fail — the Python truthiness test
`if labels and ...` skips the length check for an empty list, and the
instance even gets an empty label table and an empty mapping. -/
theorem labels_length_check_counterexample :
    msaFromGrid [['A', 'B'], ['C', 'D']] (some []) none "T" =
      .ok ⟨[['A', 'B'], ['C', 'D']], [], some [], "T"⟩ := by
  rfl

/-- C9 (amended): supplying a NONEMPTY labels list alongside a raw grid
fails with the length-mismatch `ValueError` whenever its length differs
from the row count; an empty labels list bypasses the check. -/
theorem labels_length_mismatch_fails (grid : Grid) (ls : List (Option String))
    (mapping : Option (List (String × Nat))) (t : String)
    (hne : ls ≠ []) (hlen : ls.length ≠ grid.length) :
    msaFromGrid grid (some ls) mapping t =
      .error (.valueError "len(labels) must be equal to number of sequences") := by
  simp only [msaFromGrid]
  rw [if_pos ⟨hne, hlen⟩]

/-- Witness for C9 (amended): one label against a 2-row grid fails. -/
theorem labels_length_mismatch_fails_witness :
    msaFromGrid [['A', 'B'], ['C', 'D']] (some [some "P1"]) none "T" =
      .error (.valueError "len(labels) must be equal to number of sequences") := by
  exact labels_length_mismatch_fails [['A', 'B'], ['C', 'D']] [some "P1"] none "T"
    (by decide) (by decide)

/-- C3 counterexample: on the mapping `{"A": 0}`, resolving the mixed
collection `["A", 1]` does NOT replace the key `"A"` by 0 while keeping
the positional 1 — the element `1` raises `KeyError` inside the
comprehension, so the ORIGINAL collection is kept unchanged. -/
theorem mixed_list_resolution_counterexample :
    resolveRows (some [("A", 0)]) (.list [.str "A", .int 1]) =
      .ok (.list [.str "A", .int 1]) ∧
    resolveRows (some [("A", 0)]) (.list [.str "A", .int 1]) ≠
      .ok (.list [.int 0, .int 1]) := by
  constructor
  · rfl
  · intro h
    exact absurd (Except.ok.inj h) (by decide)

/-- C3 (amended): list resolution is all-or-nothing.  If every element of
the collection is a present Label-Index key, each is replaced by its row
position; if any element is not (in particular any positional integer, or
any absent key), the original collection is used as-is. -/
theorem list_resolution_all_or_nothing (mp : List (String × Nat)) (xs : List Elem) :
    (∀ vs, listResolve mp xs = some vs →
      resolveRows (some mp) (.list xs) = .ok (.list (vs.map (fun v => Elem.int (v : Int))))) ∧
    ((∃ e ∈ xs, ∀ s, e = Elem.str s → dictGet? mp s = none) →
      resolveRows (some mp) (.list xs) = .ok (.list xs)) := by
  constructor
  · intro vs hvs
    simp only [resolveRows, hvs]
  · intro hbad
    have hnone : listResolve mp xs = none := by
      obtain ⟨e, hmem, hfail⟩ := hbad
      induction xs with
      | nil => simp at hmem
      | cons x rest ih =>
        rcases List.mem_cons.mp hmem with hx | hrest
        · subst hx
          cases e with
          | int i => simp [listResolve]
          | str s =>
            have hd : dictGet? mp s = none := hfail s rfl
            simp [listResolve, hd]
        · have hr := ih hrest
          cases x with
          | int i => simp [listResolve]
          | str s =>
            cases hds : dictGet? mp s <;> simp [listResolve, hds, hr]
    simp only [resolveRows, hnone]

/-- Witness for C3 (amended): both branches at concrete inputs — an
all-keys list is replaced, a mixed list is kept. -/
theorem list_resolution_all_or_nothing_witness :
    resolveRows (some [("A", 0), ("B", 1)]) (.list [.str "B", .str "A"]) =
      .ok (.list [.int 1, .int 0]) ∧
    resolveRows (some [("A", 0), ("B", 1)]) (.list [.str "B", .int 0]) =
      .ok (.list [.str "B", .int 0]) := by
  constructor
  · exact (list_resolution_all_or_nothing [("A", 0), ("B", 1)] [.str "B", .str "A"]).1
      [1, 0] (by decide)
  · exact (list_resolution_all_or_nothing [("A", 0), ("B", 1)] [.str "B", .int 0]).2
      ⟨.int 0, by decide, by intro s hs; cases hs⟩

/-- C2 counterexample: on the scenario alignment (2 rows), the row-only
expression `matrix[5]` fails inside `self._msa[rows]` (src line 204),
which is NOT wrapped: the caller sees the raw numpy out-of-range error,
not an `InvalidIndexError` naming the expression. -/
theorem rowonly_failure_unwrapped_counterexample :
    getitem exMSA (.int 5) = .error (.npError "index out of range") := by
  rfl

/-- C2 (amended): only failures of the TWO-PART selection
`self._msa[rows, cols]` (src lines 213-216) are wrapped: whenever that
selection fails, the caller sees `IndexError("invalid index: ...")`
naming the original expression; row-only selection failures propagate
unwrapped. -/
theorem twopart_failure_wrapped (m : MSA) (index : Idx) (r0 c0 rows : Sub)
    (csel : ColSel)
    (hcls : classify index = .ok (r0, some c0))
    (hrr : resolveRows m.mapping r0 = .ok rows)
    (hrc : resolveCols m.mapping m.msa c0 = .ok csel)
    (hsel : select2 m.msa rows csel = none) :
    getitem m index = .error (.invalidIndex index) := by
  simp only [getitem, hcls, hrr, hrc, hsel]

/-- Witness for C2 (amended): `matrix[5, 0]` on the 2-row scenario
alignment is reported as the wrapped invalid-index error. -/
theorem twopart_failure_wrapped_witness :
    getitem exMSA (.tup [.int 5, .int 0]) =
      .error (.invalidIndex (.tup [.int 5, .int 0])) := by
  exact twopart_failure_wrapped exMSA (.tup [.int 5, .int 0]) (.int 5) (.int 0)
    (.int 5) (.sub (.int 0)) rfl rfl rfl rfl

/-- A key is absent from the mapping built starting at row `i` iff no
label in the list has it as base name. -/
theorem dictGet?_buildMapAux_none (i : Nat) (names : List String) (k : String) :
    dictGet? (buildMapAux i names) k = none ↔
      ∀ lab ∈ names, (splitLabel lab).1 ≠ k := by
  induction names generalizing i with
  | nil => simp [buildMapAux, dictGet?]
  | cons lab rest ih =>
    have hih := ih (i + 1)
    simp only [buildMapAux, dictGet?, List.mem_cons, forall_eq_or_imp]
    cases hrec : dictGet? (buildMapAux (i + 1) rest) k with
    | some v =>
      simp only [reduceCtorEq, false_iff, not_and]
      intro _ hrest
      exact absurd (hih.mpr hrest) (by simp [hrec])
    | none =>
      constructor
      · intro h
        refine ⟨?_, hih.mp hrec⟩
        intro hk
        rw [if_pos hk] at h
        cases h
      · intro h
        rw [if_neg h.1]

/-- The mapping built starting at row `i` sends key `k` to `i + j` iff the
`j`-th label has base name `k` and no later label does: the LAST
occurrence of a duplicated base name wins. -/
theorem dictGet?_buildMapAux_some (i : Nat) (names : List String) (k : String)
    (v : Nat) :
    dictGet? (buildMapAux i names) k = some v ↔
      ∃ j lab, names[j]? = some lab ∧ (splitLabel lab).1 = k ∧ v = i + j ∧
        ∀ j2 lab2, j < j2 → names[j2]? = some lab2 → (splitLabel lab2).1 ≠ k := by
  induction names generalizing i v with
  | nil => simp [buildMapAux, dictGet?]
  | cons lab rest ih =>
    simp only [buildMapAux, dictGet?]
    cases hrec : dictGet? (buildMapAux (i + 1) rest) k with
    | some w =>
      obtain ⟨j, lab2, hj, hbase, hval, hlast⟩ := (ih (i + 1) w).mp hrec
      constructor
      · intro h
        have hvw : v = w := by
          simp only [Option.some.injEq] at h
          omega
        subst hvw
        refine ⟨j + 1, lab2, by simpa using hj, hbase, by omega, ?_⟩
        intro j2 lab3 hgt hget
        match j2, hgt with
        | j2 + 1, hgt =>
          exact hlast j2 lab3 (by omega) (by simpa using hget)
      · rintro ⟨j2, lab3, hj2, hbase3, hval3, hlast3⟩
        match j2 with
        | 0 =>
          exfalso
          exact hlast3 (j + 1) lab2 (by omega) (by simpa using hj) hbase
        | j2 + 1 =>
          have : dictGet? (buildMapAux (i + 1) rest) k = some ((i + 1) + j2) :=
            (ih (i + 1) ((i + 1) + j2)).mpr ⟨j2, lab3, by simpa using hj2, hbase3, rfl,
              fun j4 lab4 hgt hget =>
                hlast3 (j4 + 1) lab4 (by omega) (by simpa using hget)⟩
          rw [hrec] at this
          simp only [Option.some.injEq] at this ⊢
          omega
    | none =>
      have hnone := (dictGet?_buildMapAux_none (i + 1) rest k).mp hrec
      by_cases hk : (splitLabel lab).1 = k
      · rw [if_pos hk]
        constructor
        · intro h
          refine ⟨0, lab, by simp, hk, by simp at h; omega, ?_⟩
          intro j2 lab2 hgt hget
          match j2, hgt with
          | j2 + 1, _ =>
            exact hnone lab2 (List.getElem?_mem (by simpa using hget))
        · rintro ⟨j2, lab3, hj2, hbase3, hval3, hlast3⟩
          match j2 with
          | 0 =>
            simp only [List.getElem?_cons_zero, Option.some.injEq] at hj2
            simp only [Option.some.injEq]
            omega
          | j2 + 1 =>
            exact absurd hbase3 (hnone lab3 (List.getElem?_mem (by simpa using hj2)))
      · rw [if_neg hk]
        constructor
        · intro h
          cases h
        · rintro ⟨j2, lab3, hj2, hbase3, hval3, hlast3⟩
          match j2 with
          | 0 =>
            simp only [List.getElem?_cons_zero, Option.some.injEq] at hj2
            exact absurd (hj2 ▸ hbase3) hk
          | j2 + 1 =>
            exact absurd hbase3 (hnone lab3 (List.getElem?_mem (by simpa using hj2)))

/-- Lookup in the full mapping: `k` goes to `v` iff row `v` has base name
`k` and no later row does. -/
theorem dictGet?_buildMapping_some (names : List String) (k : String) (v : Nat) :
    dictGet? (buildMapping names) k = some v ↔
      (∃ lab, names[v]? = some lab ∧ (splitLabel lab).1 = k) ∧
        ∀ j2 lab2, v < j2 → names[j2]? = some lab2 → (splitLabel lab2).1 ≠ k := by
  rw [buildMapping, dictGet?_buildMapAux_some]
  constructor
  · rintro ⟨j, lab, hj, hbase, hval, hlast⟩
    have : v = j := by omega
    subst this
    exact ⟨⟨lab, hj, hbase⟩, hlast⟩
  · rintro ⟨⟨lab, hv, hbase⟩, hlast⟩
    exact ⟨v, lab, hv, hbase, by omega, hlast⟩

/-- C8: building an `MSA` from a `(label, sequence)` iterator keeps every
row in the buffer and in the label list, even under duplicate base names;
the Label Index maps a base name to the position of its LAST occurrence
(later insertions overwrite earlier entries), and every stored value is a
valid row position below the row count. -/
theorem iterator_mapping_last_occurrence_wins (pairs : List (String × String))
    (t : String) :
    (msaFromPairs pairs t).msa.length = pairs.length ∧
    (msaFromPairs pairs t).labels = pairs.map (fun p => some p.1) ∧
    (msaFromPairs pairs t).mapping =
      some (buildMapping (pairs.map (fun p => p.1))) ∧
    (∀ k v, dictGet? (buildMapping (pairs.map (fun p => p.1))) k = some v →
      v < pairs.length) ∧
    ∀ k v, dictGet? (buildMapping (pairs.map (fun p => p.1))) k = some v ↔
      ((∃ lab, (pairs.map (fun p => p.1))[v]? = some lab ∧ (splitLabel lab).1 = k) ∧
        ∀ j2 lab2, v < j2 → (pairs.map (fun p => p.1))[j2]? = some lab2 →
          (splitLabel lab2).1 ≠ k) := by
  refine ⟨by simp [msaFromPairs], rfl, rfl, ?_, ?_⟩
  · intro k v hv
    obtain ⟨⟨lab, hlab, _⟩, _⟩ := (dictGet?_buildMapping_some _ k v).mp hv
    have := List.getElem?_eq_some_iff.mp hlab
    obtain ⟨h, _⟩ := this
    simpa using h
  · intro k v
    exact dictGet?_buildMapping_some _ k v

/-- Witness for C8: with base name `A` appearing at rows 0 and 2, the
index maps `A` to the last occurrence, row 2, on a 3-row buffer. -/
theorem iterator_mapping_last_occurrence_wins_witness :
    dictGet? (buildMapping ["A/1-2", "B/1-2", "A"]) "A" = some 2 ∧
    (msaFromPairs [("A/1-2", "XY"), ("B/1-2", "ZW"), ("A", "QQ")] "T").msa.length = 3 := by
  have h := iterator_mapping_last_occurrence_wins
    [("A/1-2", "XY"), ("B/1-2", "ZW"), ("A", "QQ")] "T"
  refine ⟨?_, h.1⟩
  refine (h.2.2.2.2 "A" 2).mpr ⟨⟨"A", by decide, by decide⟩, ?_⟩
  intro j2 lab2 hj2 hget
  rw [List.getElem?_eq_none (by simpa using hj2)] at hget
  cases hget

/-- C7: the test `key in matrix` is true iff `key` equals, exactly, the base name
of some row label; integer and unhashable keys, and an unset Label Index,
give `False` rather than an error. -/
theorem contains_iff_base_name (pairs : List (String × String)) (t : String)
    (k : String) :
    (msaContains (msaFromPairs pairs t) (.str k) = true ↔
      ∃ p ∈ pairs, (splitLabel p.1).1 = k) ∧
    (∀ i, msaContains (msaFromPairs pairs t) (.int i) = false) ∧
    (∀ xs, msaContains (msaFromPairs pairs t) (.list xs) = false) ∧
    (∀ m2 key, m2.mapping = none → msaContains m2 key = false) := by
  refine ⟨?_, fun i => rfl, fun xs => rfl, fun m2 key h => by simp [msaContains, h]⟩
  show (dictGet? (buildMapping (pairs.map (fun p => p.1))) k).isSome = true ↔ _
  rw [buildMapping, Option.isSome_iff_ne_none, ne_eq, dictGet?_buildMapAux_none]
  push_neg
  constructor
  · rintro ⟨lab, hmem, hbase⟩
    obtain ⟨p, hp, hlab⟩ := List.mem_map.mp hmem
    exact ⟨p, hp, by rw [hlab]; exact hbase⟩
  · rintro ⟨p, hp, hbase⟩
    exact ⟨p.1, List.mem_map.mpr ⟨p, hp, rfl⟩, hbase⟩

/-- Witness for C7: on the scenario alignment, `"P2" in matrix` holds and
resolves through the base name of the second row label. -/
theorem contains_iff_base_name_witness :
    msaContains exMSA (.str "P2") = true ∧
    msaContains exMSA (.str "P3") = false := by
  have h := contains_iff_base_name [("P1/1-5", "AC-GT"), ("P2/1-5", "ACTGT")] "piwi" "P2"
  refine ⟨h.1.mpr ⟨("P2/1-5", "ACTGT"), by decide, by decide⟩, rfl⟩

/-- A 1-row alignment sharing its row with the first row of `exTwo`. -/
def exRow : MSA := ⟨[['A', 'B']], [some "Q1"], some [("Q1", 0)], "S"⟩

/-- A 2-row alignment whose rows both equal the single row of `exRow`. -/
def exTwo : MSA :=
  ⟨[['A', 'B'], ['A', 'B']], [some "Q1", some "Q2"],
    some [("Q1", 0), ("Q2", 1)], "S"⟩

/-- C6 counterexample: a 1-row and a 2-row matrix with the same repeated
row compare EQUAL — `all(other == self._msa)` broadcasts shape (1, C)
against (2, C) — although their grids are not element-wise identical
(they do not even have the same number of rows). -/
theorem eq_broadcast_counterexample :
    msaEq exRow (.msa exTwo) = true ∧ exRow.msa ≠ exTwo.msa := by
  exact ⟨rfl, by decide⟩

/-- Under rectangularity and an in-range position, broadcast fetch is the
plain element fetch. -/
theorem bget_spec {g : Grid} {C r c : Nat} (hrect : Rect g C)
    (hr : r < g.length) (hc : c < C) :
    bget g r c = (g.getD r []).getD c ' ' := by
  have hidx : (if g.length = 1 then 0 else r) = r := by split <;> omega
  rw [bget, hidx, rect_getD_length hrect hr]
  have hidx2 : (if C = 1 then 0 else c) = c := by split <;> omega
  rw [hidx2]

/-- Broadcasting two equal sizes keeps the size. -/
theorem bcastDim_self (a : Nat) : bcastDim a a = some a := by
  simp [bcastDim]

/-- C6 (amended): comparison against a non-`MSA` value is `false` and
never an error; equality of two matrices holds iff their grids are
element-wise equal AFTER numpy broadcasting — which, for two matrices of
the same shape, is exactly element-wise identity of the grids (labels and
title ignored).  The unconditional "same rows" clause of the claim fails:
see the broadcast counterexample. -/
theorem eq_iff_identical_grids_same_shape (m1 m2 : MSA) (R C : Nat)
    (h1 : m1.msa.length = R) (h2 : m2.msa.length = R)
    (hr1 : Rect m1.msa C) (hr2 : Rect m2.msa C) :
    (msaEq m1 (.msa m2) = true ↔ m1.msa = m2.msa) ∧
    msaEq m1 .other = false := by
  refine ⟨?_, rfl⟩
  show npAllEq m2.msa m1.msa = true ↔ m1.msa = m2.msa
  rcases Nat.eq_zero_or_pos R with hR | hR
  · have e1 : m1.msa = [] := List.length_eq_zero.mp (by omega)
    have e2 : m2.msa = [] := List.length_eq_zero.mp (by omega)
    rw [e1, e2]
    simp [npAllEq, bcastDim, gridCols]
  · have hc1 : gridCols m1.msa = C := by
      rw [gridCols]
      cases hm : m1.msa with
      | nil => rw [hm] at h1; simp at h1; omega
      | cons row rest =>
        show row.length = C
        exact hr1 row (hm ▸ List.mem_cons_self row rest)
    have hc2 : gridCols m2.msa = C := by
      rw [gridCols]
      cases hm : m2.msa with
      | nil => rw [hm] at h2; simp at h2; omega
      | cons row rest =>
        show row.length = C
        exact hr2 row (hm ▸ List.mem_cons_self row rest)
    rw [npAllEq, h1, h2, hc1, hc2, bcastDim_self, bcastDim_self]
    simp only [List.all_eq_true, List.mem_range, beq_iff_eq]
    constructor
    · intro h
      apply List.ext_getElem (by omega)
      intro n hn1 hn2
      have hnC1 : m1.msa[n].length = C := hr1 _ (List.getElem_mem hn1)
      have hnC2 : m2.msa[n].length = C := hr2 _ (List.getElem_mem hn2)
      apply List.ext_getElem (by omega)
      intro c hcl hcr
      have hb := h n (by omega) c (by omega)
      rw [bget_spec hr2 (by omega) (by omega), bget_spec hr1 (by omega) (by omega)] at hb
      rw [List.getD_eq_getElem _ _ hn2, List.getD_eq_getElem _ _ hn1] at hb
      rw [List.getD_eq_getElem _ _ (by omega), List.getD_eq_getElem _ _ (by omega)] at hb
      exact hb.symm
    · intro h r hrR c hcC
      rw [h]

/-- Witness for C6 (amended): the two same-shape scenario matrices with
different labels are equal; flipping one character breaks equality. -/
theorem eq_iff_identical_grids_same_shape_witness :
    msaEq exTwo (.msa ⟨[['A', 'B'], ['A', 'B']], [some "X1", some "X2"], none, "U"⟩) = true ∧
    msaEq exTwo .other = false := by
  have h := eq_iff_identical_grids_same_shape exTwo
    ⟨[['A', 'B'], ['A', 'B']], [some "X1", some "X2"], none, "U"⟩ 2 2
    (by decide) (by decide) (by decide) (by decide)
  exact ⟨h.1.mpr (by decide), h.2⟩

/-- Slice start bound never exceeds the axis length. -/
theorem normStart_le (n : Nat) (a : Option Int) : normStart n a ≤ n := by
  match a with
  | none => exact Nat.zero_le n
  | some i =>
    simp only [normStart]
    split <;> omega

/-- Slice stop bound never exceeds the axis length. -/
theorem normStop_le (n : Nat) (b : Option Int) : normStop n b ≤ n := by
  match b with
  | none => exact Nat.le_refl n
  | some i =>
    simp only [normStop]
    split <;> omega

/-- Every position a slice selects is in range. -/
theorem sliceIdxs_lt (n : Nat) (a b : Option Int) :
    ∀ x ∈ sliceIdxs n a b, x < n := by
  intro x hx
  rw [sliceIdxs] at hx
  have h := List.mem_range'_1.mp hx
  have h1 := normStart_le n a
  have h2 := normStop_le n b
  omega

/-- A list of options with no `none` collects successfully. -/
theorem optAll_isSome {α : Type} (ls : List (Option α)) (h : ∀ l ∈ ls, l.isSome) :
    ∃ vs, optAll ls = some vs := by
  induction ls with
  | nil => exact ⟨[], rfl⟩
  | cons x xs ih =>
    obtain ⟨vs, hvs⟩ := ih (fun l hl => h l (List.mem_cons_of_mem x hl))
    obtain ⟨y, hy⟩ := Option.isSome_iff_exists.mp (h x (List.mem_cons_self x xs))
    subst hy
    exact ⟨y :: vs, by simp [optAll, hvs]⟩

/-- Number of non-alphabetic (gap) characters of a row. -/
def gapCount (row : List Char) : Nat := row.countP (fun c => !c.isAlpha)

/-- Alphabetic and gap characters partition a row. -/
theorem alpha_add_gap (row : List Char) :
    row.countP (fun c => c.isAlpha) + gapCount row = row.length := by
  rw [gapCount]
  induction row with
  | nil => rfl
  | cons c cs ih =>
    simp only [List.countP_cons, List.length_cons]
    cases hc : c.isAlpha <;> simp [hc] <;> omega

/-- Mask selection keeps exactly as many characters as the mask has
`true` entries. -/
theorem maskFilter_length (row : List Char) (mk : List Bool)
    (h : row.length = mk.length) :
    (maskFilter row mk).length = mk.countP id := by
  induction row generalizing mk with
  | nil =>
    have : mk = [] := List.length_eq_zero.mp (by simpa using h.symm)
    subst this
    rfl
  | cons c cs ih =>
    match mk with
    | [] => simp at h
    | b :: bs =>
      have hlen : cs.length = bs.length := by simpa using h
      simp only [maskFilter, List.countP_cons]
      cases b <;> simp [ih bs hlen]

/-- C1 counterexample: with a LIST row selector, the claim fails.  On the
scenario alignment, `matrix[[0, 1, 1], "P1"]` should — per the claim —
select rows 0, 1, 1 at the 4 ungapped columns of row `P1`; instead numpy
broadcasts the 3-element row array against the 4 mask positions, the
selection raises, and the caller gets the wrapped invalid-index error
rather than a 3×4 result. -/
theorem colmask_list_rows_counterexample :
    getitem exMSA (.tup [.list [.int 0, .int 1, .int 1], .str "P1"]) =
      .error (.invalidIndex (.tup [.list [.int 0, .int 1, .int 1], .str "P1"])) := by
  rfl

/-- Positions listed by the mask nonzero computation are in range. -/
theorem maskTrueIdxs_lt (mk : List Bool) : ∀ x ∈ maskTrueIdxs mk, x < mk.length := by
  induction mk with
  | nil => intro x hx; cases hx
  | cons b bs ih =>
    intro x hx
    cases b with
    | true =>
      simp only [maskTrueIdxs, if_pos] at hx
      rcases List.mem_cons.mp hx with h0 | hmem
      · subst h0
        simp
      · obtain ⟨y, hy, rfl⟩ := List.mem_map.mp hmem
        have := ih y hy
        simp only [List.length_cons]
        omega
    | false =>
      simp only [maskTrueIdxs, if_neg] at hx
      obtain ⟨y, hy, rfl⟩ := List.mem_map.mp hx
      have := ih y hy
      simp only [List.length_cons]
      omega

/-- The mask nonzero computation lists one position per `true` entry. -/
theorem maskTrueIdxs_length (mk : List Bool) :
    (maskTrueIdxs mk).length = mk.countP id := by
  induction mk with
  | nil => rfl
  | cons b bs ih =>
    cases b <;> simp [maskTrueIdxs, List.countP_cons, ih]

/-- A list of integer elements converts to its integers. -/
theorem elemsToInts_map_int (ns : List Nat) :
    elemsToInts (ns.map (fun (n : Nat) => Elem.int (n : Int))) =
      some (ns.map (fun (n : Nat) => (n : Int))) := by
  induction ns with
  | nil => rfl
  | cons n rest ih => simp [elemsToInts, ih]

/-- Collecting options that are all known to be `some`. -/
theorem optAll_of_all_some {α β : Type} (f : α → Option β) (g : α → β)
    (l : List α) (h : ∀ x ∈ l, f x = some (g x)) :
    optAll (l.map f) = some (l.map g) := by
  induction l with
  | nil => rfl
  | cons x xs ih =>
    have hx := h x (List.mem_cons_self x xs)
    have hxs := ih (fun y hy => h y (List.mem_cons_of_mem x hy))
    simp only [List.map_cons, hx]
    simp [optAll, hxs]

/-- C1 (amended): when the column selector of a two-part expression is a
Label-Index key for row `r`, it is replaced by the boolean mask
`isalpha(buffer[r])`.  For a SLICE row selector (including the bare
colon) the result is a matrix keeping, in every selected row, exactly
the characters at alphabetic positions of row `r`, so every result row
has `columnCount - gapCount(row r)` characters.  For an INTEGER row
selector the result is the bare string of that row at exactly the
alphabetic positions of row `r`, again of length
`columnCount - gapCount(row r)`.  For a COLLECTION of positional
integers, numpy instead pairs the collection element-wise with the
positions of the true mask entries: with equal lengths the result is the
1-D string of those (row, alphabetic-column) pairs — length again
`columnCount - gapCount(row r)` — and with broadcast-incompatible
lengths (neither equal nor either 1) the selection fails as the wrapped
invalid-index error (see also the counterexample). -/
theorem colmask_selection (m : MSA) (mp : List (String × Nat)) (L : String)
    (r C : Nat)
    (hmap : m.mapping = some mp) (hL : dictGet? mp L = some r)
    (hr : r < m.msa.length) (hrect : Rect m.msa C)
    (hlen : m.labels.length = m.msa.length)
    (hlab : ∀ l ∈ m.labels, l.isSome) :
    resolveCols m.mapping m.msa (.str L) =
      .ok (.mask ((m.msa.getD r []).map Char.isAlpha)) ∧
    (∀ a b, ∃ m2, getitem m (.tup [.slice a b, .str L]) = .ok (.msa m2) ∧
      m2.msa = (sliceIdxs m.msa.length a b).map
        (fun r2 => maskFilter (m.msa.getD r2 []) ((m.msa.getD r []).map Char.isAlpha)) ∧
      ∀ row2 ∈ m2.msa, row2.length = C - gapCount (m.msa.getD r [])) ∧
    (∀ i, i < m.msa.length →
      getitem m (.tup [.int (i : Int), .str L]) =
        .ok (.str (String.mk (maskFilter (m.msa.getD i [])
          ((m.msa.getD r []).map Char.isAlpha)))) ∧
      (String.mk (maskFilter (m.msa.getD i [])
          ((m.msa.getD r []).map Char.isAlpha))).length =
        C - gapCount (m.msa.getD r [])) ∧
    (∀ ns : List Nat, ns ≠ [] → (∀ n ∈ ns, n < m.msa.length) →
      (ns.length = (maskTrueIdxs ((m.msa.getD r []).map Char.isAlpha)).length →
        ∃ s, getitem m (.tup [.list (ns.map (fun (n : Nat) => Elem.int (n : Int))), .str L]) =
          .ok (.str s) ∧ s.length = C - gapCount (m.msa.getD r [])) ∧
      (ns.length ≠ (maskTrueIdxs ((m.msa.getD r []).map Char.isAlpha)).length →
        ns.length ≠ 1 →
        (maskTrueIdxs ((m.msa.getD r []).map Char.isAlpha)).length ≠ 1 →
        getitem m (.tup [.list (ns.map (fun (n : Nat) => Elem.int (n : Int))), .str L]) =
          .error (.invalidIndex
            (.tup [.list (ns.map (fun (n : Nat) => Elem.int (n : Int))), .str L])))) := by
  have hmask : resolveCols m.mapping m.msa (.str L) =
      .ok (.mask ((m.msa.getD r []).map Char.isAlpha)) := by
    simp only [resolveCols, hmap, hL]
    rw [if_pos hr]
  have hrC : (m.msa.getD r []).length = C := rect_getD_length hrect hr
  have hcnt : ((m.msa.getD r []).map Char.isAlpha).countP id =
      C - gapCount (m.msa.getD r []) := by
    rw [List.countP_map]
    have h1 : (m.msa.getD r []).countP (id ∘ Char.isAlpha) =
        (m.msa.getD r []).countP (fun c => c.isAlpha) := rfl
    rw [h1]
    have hpart := alpha_add_gap (m.msa.getD r [])
    omega
  refine ⟨hmask, ?_, ?_, ?_⟩
  · intro a b
    obtain ⟨vs, hvs⟩ := optAll_isSome
      ((sliceIdxs m.labels.length a b).map (fun r2 => m.labels.getD r2 none)) (by
        intro l hl
        obtain ⟨r2, hr2, hval⟩ := List.mem_map.mp hl
        have hr2lt : r2 < m.labels.length := sliceIdxs_lt _ _ _ _ hr2
        rw [← hval, List.getD_eq_getElem _ _ hr2lt]
        exact hlab _ (List.getElem_mem hr2lt))
    refine ⟨⟨(sliceIdxs m.msa.length a b).map
        (fun r2 => maskFilter (m.msa.getD r2 []) ((m.msa.getD r []).map Char.isAlpha)),
      (sliceIdxs m.labels.length a b).map (fun r2 => m.labels.getD r2 none),
      some (buildMapping vs), m.title ++ "\x27"⟩, ?_, rfl, ?_⟩
    · have hrr : resolveRows m.mapping (.slice a b) = .ok (.slice a b) := by
        rw [hmap]
        rfl
      simp only [getitem, classify, hrr, hmask, select2, finish2,
        mkDerived, subLabels, msaFromGrid, buildMappingOpt, hvs]
      rw [if_neg]
      intro hcon
      apply hcon.2
      simp only [List.length_map, List.length_range']
      rw [hlen]
    · intro row2 hrow2
      obtain ⟨r2, hr2, hval⟩ := List.mem_map.mp hrow2
      have hr2lt : r2 < m.msa.length := sliceIdxs_lt _ _ _ _ hr2
      rw [← hval]
      rw [maskFilter_length _ _ (by
        rw [rect_getD_length hrect hr2lt, List.length_map, hrC])]
      exact hcnt
  · intro i hi
    have hrr2 : resolveRows m.mapping (.int (i : Int)) = .ok (.int (i : Int)) := by
      rw [hmap]
      rfl
    refine ⟨?_, ?_⟩
    · simp only [getitem, classify, hrr2, hmask, select2, npIdx_coe_lt hi,
        Option.map_some, Option.map_some', finish2]
    · rw [String.length_mk]
      rw [maskFilter_length _ _ (by
        rw [rect_getD_length hrect hi, List.length_map, hrC])]
      exact hcnt
  · intro ns hne hbound
    obtain ⟨n0, rest, rfl⟩ := List.exists_cons_of_ne_nil hne
    have hres : resolveRows m.mapping
        (.list ((n0 :: rest).map (fun (n : Nat) => Elem.int (n : Int)))) =
        .ok (.list ((n0 :: rest).map (fun (n : Nat) => Elem.int (n : Int)))) := by
      rw [hmap]
      rfl
    have heti := elemsToInts_map_int (n0 :: rest)
    have hmlen := maskTrueIdxs_length ((m.msa.getD r []).map Char.isAlpha)
    constructor
    · intro hlens
      have hbc : broadcast2 ((n0 :: rest).map (fun (n : Nat) => (n : Int)))
          ((maskTrueIdxs ((m.msa.getD r []).map Char.isAlpha)).map (fun (x : Nat) => (x : Int))) =
          some (((n0 :: rest).map (fun (n : Nat) => (n : Int))).zip
            ((maskTrueIdxs ((m.msa.getD r []).map Char.isAlpha)).map
              (fun (x : Nat) => (x : Int)))) := by
        rw [broadcast2, if_pos]
        simp only [List.length_map]
        exact hlens
      have hall : ∀ p ∈ ((n0 :: rest).map (fun (n : Nat) => (n : Int))).zip
          ((maskTrueIdxs ((m.msa.getD r []).map Char.isAlpha)).map (fun (x : Nat) => (x : Int))),
          (npIdx m.msa.length p.1).bind (fun r2 =>
            (npIdx (m.msa.getD r2 []).length p.2).map
              (fun c2 => (m.msa.getD r2 []).getD c2 ' ')) =
          some ((m.msa.getD p.1.toNat []).getD p.2.toNat ' ') := by
        intro p hp
        obtain ⟨h1, h2⟩ := List.of_mem_zip hp
        obtain ⟨n, hn, hpn⟩ := List.mem_map.mp h1
        obtain ⟨c, hc, hpc⟩ := List.mem_map.mp h2
        have hnR : n < m.msa.length := hbound n hn
        have hcC : c < C := by
          have hgen := maskTrueIdxs_lt _ _ hc
          rw [List.length_map, hrC] at hgen
          exact hgen
        rw [← hpn, ← hpc, npIdx_coe_lt hnR]
        simp only [Option.some_bind]
        rw [rect_getD_length hrect hnR, npIdx_coe_lt hcC]
        simp [Int.toNat_natCast, rect_getD_length hrect hnR]
      have hopt := optAll_of_all_some _
        (fun (p : Int × Int) => (m.msa.getD p.1.toNat []).getD p.2.toNat ' ') _ hall
      have hps : pairSelect m.msa ((n0 :: rest).map (fun (n : Nat) => (n : Int)))
          ((maskTrueIdxs ((m.msa.getD r []).map Char.isAlpha)).map (fun (x : Nat) => (x : Int))) =
          some (.vec ((((n0 :: rest).map (fun (n : Nat) => (n : Int))).zip
            ((maskTrueIdxs ((m.msa.getD r []).map Char.isAlpha)).map
              (fun (x : Nat) => (x : Int)))).map
            (fun (p : Int × Int) => (m.msa.getD p.1.toNat []).getD p.2.toNat ' '))) := by
        simp only [pairSelect, hbc, hopt, Option.map_some, Option.map_some']
      refine ⟨String.mk ((((n0 :: rest).map (fun (n : Nat) => (n : Int))).zip
          ((maskTrueIdxs ((m.msa.getD r []).map Char.isAlpha)).map
            (fun (x : Nat) => (x : Int)))).map
          (fun (p : Int × Int) => (m.msa.getD p.1.toNat []).getD p.2.toNat ' ')), ?_, ?_⟩
      · simp only [getitem, classify, hres, hmask, select2, heti,
          Option.some_bind, hps, finish2]
      · rw [String.length_mk, List.length_map, List.length_zip]
        simp only [List.length_map]
        omega
    · intro hne1 hne2 hne3
      have hbc : broadcast2 ((n0 :: rest).map (fun (n : Nat) => (n : Int)))
          ((maskTrueIdxs ((m.msa.getD r []).map Char.isAlpha)).map
            (fun (x : Nat) => (x : Int))) = none := by
        rw [broadcast2]
        rw [if_neg (by simp only [List.length_map]; exact hne1)]
        rw [if_neg (by simp only [List.length_map]; exact hne2)]
        rw [if_neg (by simp only [List.length_map]; exact hne3)]
      have hps : pairSelect m.msa ((n0 :: rest).map (fun (n : Nat) => (n : Int)))
          ((maskTrueIdxs ((m.msa.getD r []).map Char.isAlpha)).map
            (fun (x : Nat) => (x : Int))) = none := by
        simp only [pairSelect, hbc]
      simp only [getitem, classify, hres, hmask, select2, heti,
        Option.some_bind, hps]

/-- Witness for C1 (amended): on the scenario alignment,
`matrix[:, "P1"]` replaces the column selector by the mask of row 0 and
yields the 2×4 grid with the gap column removed; `matrix[0, "P1"]`
yields the bare 4-character string; the 4-element list `[0, 1, 0, 1]`
pairs with the 4 alphabetic positions into a 4-character string. -/
theorem colmask_selection_witness :
    resolveCols exMSA.mapping exMSA.msa (.str "P1") =
      .ok (.mask [true, true, false, true, true]) ∧
    (∃ m2, getitem exMSA (.tup [.slice none none, .str "P1"]) = .ok (.msa m2) ∧
      m2.msa = [['A', 'C', 'G', 'T'], ['A', 'C', 'G', 'T']]) ∧
    getitem exMSA (.tup [.int 0, .str "P1"]) =
      .ok (.str (String.mk ['A', 'C', 'G', 'T'])) ∧
    ∃ s, getitem exMSA (.tup [.list [.int 0, .int 1, .int 0, .int 1], .str "P1"]) =
      .ok (.str s) ∧ s.length = 5 - gapCount (exMSA.msa.getD 0 []) := by
  have h := colmask_selection exMSA (buildMapping ["P1/1-5", "P2/1-5"]) "P1" 0 5
    rfl (by decide) (by decide) (by decide) (by decide) (by decide)
  obtain ⟨h1, h2, h3, h4⟩ := h
  refine ⟨h1.trans rfl, ?_, ?_, ?_⟩
  · obtain ⟨m2, ha, hb, hc⟩ := h2 none none
    exact ⟨m2, ha, hb.trans rfl⟩
  · exact ((h3 0 (by decide)).1).trans rfl
  · obtain ⟨s, hs, hl⟩ := (h4 [0, 1, 0, 1] (by decide) (by decide)).1 (by decide)
    exact ⟨s, hs, hl⟩

end ProdyMSA
